import Mathlib

/-!
# Verification of the pushbullet-cli push tool

A shallow embedding of `pushbullet_cli/app.py`.  External effects
(filesystem queries, the remote PushBullet client, terminal input) are
modelled as explicit parameters: the filesystem as a predicate on paths,
the remote client as a function from issued calls to `(success, data)`
results, terminal input as a list of lines.  Machine-level details that
the program never observes (byte encodings, file descriptors) are not
modelled.
-/

namespace PushbulletCli

/-- A device registered on the account: the remote identifier and the
human-readable nickname used for lookup and display. -/
structure Device where
  iden : String
  nickname : String
deriving DecidableEq, Repr

/-- The regex test `URL_RE.search`, for `URL_RE` compiled from the
pattern anchored scheme, separator, remainder (alpha+, then colon and
two slashes, then dot-plus, then end).
Since `^` anchors at the start (no MULTILINE) the scheme is the maximal
ASCII-alphabetic prefix (an alphabetic character is never `:`), followed
literally by `://`, followed by `.+$`: a non-empty remainder containing
no newline, optionally followed by one trailing newline that `$` accepts. -/
def URL_RE_search (s : String) : Bool :=
  let cs := s.data
  let scheme := cs.takeWhile Char.isAlpha
  let rest := cs.drop scheme.length
  match scheme, rest with
  | [], _ => false
  | _ :: _, ':' :: '/' :: '/' :: tail =>
    let core := if tail.getLast? = some '\n' then tail.dropLast else tail
    !core.isEmpty && core.all (fun c => c ≠ '\n')
  | _ :: _, _ => false

/-- The content classifier `_data_type(argument)`.  `isfile` stands for
`os.path.isfile`, the only filesystem query the classifier makes. -/
def _data_type (isfile : String → Bool) (argument : String) : String :=
  if isfile argument then "file"
  else if URL_RE_search argument then "url"
  else "text"

/-- C1: classification applies its checks in this fixed order: existing
regular file ⇒ `"file"`; otherwise URL pattern ⇒ `"url"`; otherwise
`"text"`.  A path to an existing file is `"file"` even when its text also
matches the URL pattern, because the first branch never consults the
pattern. -/
theorem C1_classifier_order (isfile : String → Bool) (arg : String) :
    (isfile arg = true → _data_type isfile arg = "file") ∧
    (isfile arg = false → URL_RE_search arg = true → _data_type isfile arg = "url") ∧
    (isfile arg = false → URL_RE_search arg = false → _data_type isfile arg = "text") := by
  refine ⟨fun h => by simp [_data_type, h], fun h h2 => ?_, fun h h2 => ?_⟩ <;>
    simp [_data_type, h, h2]

/-- Witness: an existing file whose name matches the URL pattern is still
classified `"file"`; `"http://example.com"` with no such file is `"url"`;
`"hello world"` is `"text"`. -/
theorem C1_classifier_order_witness :
    _data_type (fun s => s == "http://mnt/file") "http://mnt/file" = "file" ∧
    _data_type (fun _ => false) "http://example.com" = "url" ∧
    _data_type (fun _ => false) "hello world" = "text" :=
  ⟨(C1_classifier_order (fun s => s == "http://mnt/file") "http://mnt/file").1 (by decide),
   (C1_classifier_order (fun _ => false) "http://example.com").2.1 rfl (by decide),
   (C1_classifier_order (fun _ => false) "hello world").2.2 rfl (by decide)⟩

/-- One remote-API call, with the parameters the program passes.  The
`device` component models the optional `device` entry of the keyword
dictionary `data`: `none` means the key is absent (service default). -/
inductive Call where
  | upload_file (path : String) : Call
  | push_file (fileData : String) (device : Option Device) : Call
  | push_link (title : String) (url : String) (device : Option Device) : Call
  | push_note (title : String) (body : String) (device : Option Device) : Call
deriving DecidableEq, Repr

/-- The payload of `PushbulletException`: the name of the failing
operation together with the failure data the API returned
(the formatted message naming `f` and `data`). -/
structure PBError where
  opName : String
  payload : String
deriving DecidableEq, Repr

/-- The wrapper `raise_for_status(f)` applied to the result of one call to `f`:
a `(success, data)` pair is unwrapped to `data` on success and raised as
a `PushbulletException` naming the operation on failure. -/
def raise_for_status (fname : String) (r : Bool × String) : Except PBError String :=
  if r.1 then Except.ok r.2
  else Except.error ⟨fname, r.2⟩

/-- The dispatcher `_push(pb, device, raw_data, data_type)`.  `result` is the remote
client: for each issued call it yields the `(success, data)` pair the
corresponding wrapped method returns.  The value is the list of calls
actually issued, in order, together with the outcome: `Except.error`
models the `PushbulletException` aborting the run after the listed calls. -/
def _push (result : Call → Bool × String) (device : Option Device)
    (raw_data : String) (data_type : String) : List Call × Except PBError Unit :=
  if data_type = "file" then
    let c1 := Call.upload_file raw_data
    match raise_for_status "upload_file" (result c1) with
    | Except.error e => ([c1], Except.error e)
    | Except.ok file_data =>
      let c2 := Call.push_file file_data device
      match raise_for_status "push_file" (result c2) with
      | Except.error e => ([c1, c2], Except.error e)
      | Except.ok _ => ([c1, c2], Except.ok ())
  else if data_type = "url" then
    let c := Call.push_link raw_data raw_data device
    match raise_for_status "push_link" (result c) with
    | Except.error e => ([c], Except.error e)
    | Except.ok _ => ([c], Except.ok ())
  else
    let c := Call.push_note "Note" raw_data device
    match raise_for_status "push_note" (result c) with
    | Except.error e => ([c], Except.error e)
    | Except.ok _ => ([c], Except.ok ())

/-- C2: pushing `"text"`-classified content issues exactly one remote
call, `push_note`, with title `"Note"`, body equal to the content, and
the resolved device as the routing option; with no resolved device the
routing option is `none` (the `device` key is absent from `data`). -/
theorem C2_note_dispatch (result : Call → Bool × String) (d : Device)
    (content : String) :
    (_push result (some d) content "text").1 =
      [Call.push_note "Note" content (some d)] ∧
    (_push result none content "text").1 =
      [Call.push_note "Note" content none] := by
  have key : ∀ device : Option Device,
      (_push result device content "text").1 =
        [Call.push_note "Note" content device] := by
    intro device
    simp only [_push, raise_for_status]
    cases h : (result (Call.push_note "Note" content device)).1 <;> simp [h]
  exact ⟨key (some d), key none⟩

/-- The process/filesystem state the credential store touches: the
process umask and the credential file at `KEY_PATH`
(`~/.pushbulletkey`): `none` when no file exists, otherwise its contents
and its permission bits. -/
structure ProcState where
  umask : Nat
  keyFile : Option (String × Nat)
deriving DecidableEq, Repr

/-- Permission bits a file created by `open(…, "w")` receives: the
default `0o666` with the umask bits removed. -/
def modeBits (umask : Nat) : Nat := 0o666 &&& (0o777 ^^^ (umask &&& 0o777))

/-- The context manager `private_files()`: saves the umask, sets it to `0o77`, runs the body,
and restores the saved mask on every exit path — the body's outcome
(`Except.error` models a raised exception crossing the `finally`) is
passed through unchanged. -/
def private_files {α : Type} (body : ProcState → ProcState × Except PBError α)
    (s : ProcState) : ProcState × Except PBError α :=
  let oldmask := s.umask
  let inner := body { s with umask := 0o77 }
  ({ inner.1 with umask := oldmask }, inner.2)

/-- The write `open(KEY_PATH, "w"); api_file.write(api_key)`: creates the
credential file with the given contents and the mode derived from the
umask in force at creation time. -/
def writeKey (api_key : String) (s : ProcState) : ProcState × Except PBError Unit :=
  ({ s with keyFile := some (api_key, modeBits s.umask) }, Except.ok ())

/-- Python `str.strip()` for ASCII whitespace: drops leading and
trailing whitespace characters. -/
def pyStrip (s : String) : String :=
  ⟨((s.data.dropWhile Char.isWhitespace).reverse.dropWhile Char.isWhitespace).reverse⟩

/-- The credential store `_get_api_key()`.  `input` is the line the interactive prompt would
read.  Returns the key, whether the user was prompted, and the new
state: with no credential file it prompts, strips the line, writes it
under `private_files()`, and returns the stripped key; with an existing
file it returns the file's full contents unchanged. -/
def _get_api_key (input : String) (s : ProcState) :
    (String × Bool) × ProcState :=
  match s.keyFile with
  | some (c, _) => ((c, false), s)
  | none =>
    let api_key := pyStrip input
    let written := private_files (writeKey api_key) s
    ((api_key, true), written.1)

/-- Digits of a decimal literal, or `none` when the list is empty or
holds a non-digit. -/
def digitsToNat? (cs : List Char) : Option Nat :=
  if cs.isEmpty then none
  else if cs.all Char.isDigit then
    some (cs.foldl (fun n c => 10 * n + (c.toNat - '0'.toNat)) 0)
  else none

/-- Python `int(s)` on an already-stripped string: an optional sign
followed by decimal digits; anything else raises `ValueError`, modelled
as `none`.  (Underscore digit separators are not modelled.) -/
def pyInt? (s : String) : Option Int :=
  match s.data with
  | '-' :: rest => (digitsToNat? rest).map (fun n => -(n : Int))
  | '+' :: rest => (digitsToNat? rest).map (fun n => (n : Int))
  | cs => (digitsToNat? cs).map (fun n => (n : Int))

/-- The menu lines the selection prompt prints, index in brackets then
the nickname, starting at index `i`. -/
def promptMenuAux (i : Nat) : List Device → List String
  | [] => []
  | d :: rest => ("[" ++ toString i ++ "] " ++ d.nickname) :: promptMenuAux (i + 1) rest

/-- The full zero-indexed device menu `_prompt_device` prints before
looping. -/
def promptMenu (devices : List Device) : List String := promptMenuAux 0 devices

/-- The `while True` selection loop of `_prompt_device`, driven by the
(finite) list of lines the user will type: a line that strips and parses
to an integer in `[0, len(devices))` returns that device; any other line
is silently skipped and the loop continues; exhausting the list — the
user never types a valid selection — yields `none`, i.e. the loop is
still running. -/
def promptLoop (devices : List Device) : List String → Option Device
  | [] => none
  | line :: rest =>
    match pyInt? (pyStrip line) with
    | some choice =>
      if h : 0 ≤ choice ∧ choice < (devices.length : Int) then
        some (devices.get ⟨choice.toNat, by omega⟩)
      else promptLoop devices rest
    | none => promptLoop devices rest

/-- A line on which the selection loop does not return: it fails to
parse as an integer or is out of range. -/
def badLine (devices : List Device) (line : String) : Bool :=
  match pyInt? (pyStrip line) with
  | none => true
  | some choice => !(decide (0 ≤ choice) && decide (choice < (devices.length : Int)))

/-- Insertion into a Python dict modelled as an association list in key
insertion order: an existing key keeps its position and gets the new
value, a new key is appended. -/
def dictInsert (m : List (String × Device)) (k : String) (v : Device) :
    List (String × Device) :=
  if m.any (fun p => p.1 == k) then
    m.map (fun p => if p.1 == k then (k, v) else p)
  else m ++ [(k, v)]

/-- Dict lookup: the value stored at `k`, if the key is present. -/
def dictLookup (m : List (String × Device)) (k : String) : Option Device :=
  (m.find? (fun p => p.1 == k)).map Prod.snd

/-- The dict comprehension over `pb.devices` keyed by nickname: the nickname-to-device dict,
built left to right so that a repeated nickname keeps its first position
but ends up mapped to the last device carrying it. -/
def devices_by_names (devices : List Device) : List (String × Device) :=
  devices.foldl (fun m d => dictInsert m d.nickname d) []

/-- Python string join with a separator over a list of strings. -/
def joinStr (sep : String) : List String → String
  | [] => ""
  | [x] => x
  | x :: xs => x ++ sep ++ joinStr sep xs

/-- The structure `argparse` produces: positional message words plus the
three device-selection options (`-a` or `--all`, `-i` or
`--interactive`, `-d NAME` or `--device NAME`). -/
structure Args where
  msg : List String
  all : Bool
  interactive : Bool
  device : Option String
deriving DecidableEq, Repr

/-- The three members of the mutually exclusive device-selection group. -/
inductive GroupFlag where
  | all
  | inter
  | dev
deriving DecidableEq, Repr

/-- A command-line token that is not option-like: it does not start
with `-`, so `argparse` treats it as a positional message word. -/
def plainTok (t : String) : Bool :=
  match t.data with
  | '-' :: _ => false
  | _ => true

/-- How `argparse` categorises one token for this parser. -/
inductive Tok where
  | flagAll
  | flagInter
  | flagDev
  | plain
  | badOpt
deriving DecidableEq, Repr

/-- Token categories for the parser of `_parse_args`.  (Long-option
abbreviations, `--`, `-d=value`, a lone `-` and negative-number
positionals are not modelled; no claim depends on them.) -/
def classifyTok (t : String) : Tok :=
  if t = "-a" ∨ t = "--all" then Tok.flagAll
  else if t = "-i" ∨ t = "--interactive" then Tok.flagInter
  else if t = "-d" ∨ t = "--device" then Tok.flagDev
  else if plainTok t then Tok.plain
  else Tok.badOpt

/-- The scan `argparse` performs for `_parse_args`' configuration:
positionals accumulate into `msg`; a `-d` flag makes the next token
`pending` consumption as its value (a following option-like token is
the missing-argument usage error); firing an option of the mutually
exclusive group when a different member of the group has already fired
is a usage error.  The `closed` component models the consumption of the
`msg` positional (declared with a star nargs): the positional matcher
consumes the first non-empty contiguous run of positional tokens, so
that run is `closed` by the next option, and any positional token
arriving after it is an unrecognized extra — a usage error.
Real `argparse` defers the extras diagnostic to the end of the scan, so
on a command line holding both an extra and a later group conflict it
reports the conflict first; both are usage errors exiting 2, and the
model reports the first one in scan order.  Any error terminates
parsing before anything else runs. -/
def parseLoop : List String → Option GroupFlag → Bool → Bool → Args → Except String Args
  | [], _, pending, _, acc =>
    if pending then Except.error "expected one argument" else Except.ok acc
  | tok :: rest, seen, pending, closed, acc =>
    if pending then
      if plainTok tok then
        parseLoop rest seen false closed { acc with device := some tok }
      else Except.error "expected one argument"
    else
      match classifyTok tok with
      | Tok.flagAll =>
        if seen = none ∨ seen = some GroupFlag.all then
          parseLoop rest (some GroupFlag.all) false (closed || !acc.msg.isEmpty)
            { acc with all := true }
        else Except.error "mutually exclusive arguments"
      | Tok.flagInter =>
        if seen = none ∨ seen = some GroupFlag.inter then
          parseLoop rest (some GroupFlag.inter) false (closed || !acc.msg.isEmpty)
            { acc with interactive := true }
        else Except.error "mutually exclusive arguments"
      | Tok.flagDev =>
        if seen = none ∨ seen = some GroupFlag.dev then
          parseLoop rest (some GroupFlag.dev) true (closed || !acc.msg.isEmpty) acc
        else Except.error "mutually exclusive arguments"
      | Tok.plain =>
        if closed then Except.error "unrecognized arguments"
        else parseLoop rest seen false false { acc with msg := acc.msg ++ [tok] }
      | Tok.badOpt => Except.error "unrecognized arguments"

/-- The parser entry `_parse_args()` on a given argument vector. -/
def _parse_args (argv : List String) : Except String Args :=
  parseLoop argv none false false ⟨[], false, false, none⟩

/-- How one invocation ends: `exit n` is a controlled return with that
exit code (argparse usage errors exit with `2`), `fatal e` is an
uncaught `PushbulletException`, and `hang` marks the interactive
selection loop still waiting for valid input. -/
inductive Outcome where
  | exit (code : Nat)
  | fatal (e : PBError)
  | hang
deriving DecidableEq, Repr

/-- The external world one run of `main` observes: the account's device
list, the remote client's responses, the filesystem query of the
classifier, standard input, and the lines typed at the interactive
device prompt. -/
structure MainEnv where
  devices : List Device
  result : Call → Bool × String
  isfile : String → Bool
  stdin : String
  promptInputs : List String

/-- The tail of `main` after device resolution: pick the message (the
joined positional words, or all of standard input classified `"text"`
unconditionally), classify it, dispatch, and map the outcome of `_push`
to the final outcome.  Also returns the calls issued and the lines
printed. -/
def mainDispatch (device : Option Device) (args : Args) (env : MainEnv) :
    Outcome × List Call × List String :=
  let picked :=
    if args.msg.isEmpty then (env.stdin, "text", ["Enter your message: "])
    else
      let a := joinStr " " args.msg
      (a, _data_type env.isfile a, ([] : List String))
  let pushed := _push env.result device picked.1 picked.2.1
  match pushed.2 with
  | Except.ok _ => (Outcome.exit 0, pushed.1, picked.2.2)
  | Except.error e => (Outcome.fatal e, pushed.1, picked.2.2)

/-- The body of `main()` after credentials: device resolution followed by dispatch.
With `--all` the whole resolution block (including the empty-device-list
check) is skipped and dispatch runs with no specific device.  Without
`--all`, an empty device list prints the no-devices message and returns
exit code 1; `--interactive` prints the menu and runs the selection
loop; `--device NAME` looks `NAME` up in the nickname dict — but, as in
the source's truthiness test `elif args.device:`, an empty `NAME`
behaves as if the option were absent. -/
def mainRun (args : Args) (env : MainEnv) : Outcome × List Call × List String :=
  if args.all then mainDispatch none args env
  else if env.devices.length < 1 then
    (Outcome.exit 1, [],
     ["You don't have any devices!", "Add one at <https://www.pushbullet.com/>."])
  else if args.interactive then
    match promptLoop env.devices env.promptInputs with
    | none => (Outcome.hang, [], promptMenu env.devices)
    | some d =>
      let r := mainDispatch (some d) args env
      (r.1, r.2.1, promptMenu env.devices ++ r.2.2)
  else
    match args.device with
    | some name =>
      if name = "" then mainDispatch none args env
      else
        let m := devices_by_names env.devices
        match dictLookup m name with
        | none =>
          (Outcome.exit 1, [],
           ["Unknown device " ++ name ++ ". Available devices: " ++
             joinStr ", " (m.map Prod.fst)])
        | some d => mainDispatch (some d) args env
    | none => mainDispatch none args env

/-- The observable result of one whole invocation: the outcome, the
remote calls issued, whether the credential store was consulted, and
the final filesystem state. -/
structure RunResult where
  outcome : Outcome
  calls : List Call
  credentialRead : Bool
  finalState : ProcState
deriving Repr

/-- The whole program: parse the arguments; on a usage error `argparse`
exits with status 2 before the credential store or the network is
touched; otherwise read or create the credential and run `main`'s body. -/
def program (argv : List String) (keyInput : String) (s : ProcState)
    (env : MainEnv) : RunResult :=
  match _parse_args argv with
  | Except.error _ => ⟨Outcome.exit 2, [], false, s⟩
  | Except.ok args =>
    let key := _get_api_key keyInput s
    let r := mainRun args env
    ⟨r.1, r.2.1, true, key.2⟩

/-- C8: `private_files()` changes the process umask to the restrictive
`0o77` only for the duration of its body and restores the prior mask on
every exit path — the body (which may end in `Except.error`, modelling a
failing write) runs against the masked state, its outcome and filesystem
effect pass through unchanged, and the resulting umask is always the
original one; in particular `_get_api_key` never changes the umask. -/
theorem C8_umask_scoped {α : Type} (body : ProcState → ProcState × Except PBError α)
    (s : ProcState) (input : String) :
    (private_files body s).1.umask = s.umask ∧
    (private_files body s).2 = (body { s with umask := 0o77 }).2 ∧
    (private_files body s).1.keyFile = (body { s with umask := 0o77 }).1.keyFile ∧
    (_get_api_key input s).2.umask = s.umask := by
  refine ⟨rfl, rfl, rfl, ?_⟩
  cases h : s.keyFile with
  | none => simp [_get_api_key, h, private_files, writeKey]
  | some p => obtain ⟨c, m⟩ := p; simp [_get_api_key, h]

/-- C4: credential round-trip.  With no credential file, key retrieval
prompts, returns the input stripped of surrounding whitespace, and
creates the file holding exactly that stripped key with owner-only
mode `0o600` (the write happens under umask `0o77`, so group and other
bits are clear), leaving the umask as before; any later retrieval in
the resulting state returns the file's full contents unchanged without
prompting. -/
theorem C4_credential_roundtrip (s : ProcState) (input next : String)
    (h : s.keyFile = none) :
    (_get_api_key input s).1.1 = pyStrip input ∧
    (_get_api_key input s).1.2 = true ∧
    (_get_api_key input s).2 =
      { umask := s.umask, keyFile := some (pyStrip input, 0o600) } ∧
    0o600 &&& 0o77 = 0 ∧
    _get_api_key next (_get_api_key input s).2 =
      ((pyStrip input, false), (_get_api_key input s).2) ∧
    (∀ (c : String) (m : Nat) (s2 : ProcState), s2.keyFile = some (c, m) →
      _get_api_key next s2 = ((c, false), s2)) := by
  have hmode : modeBits 0o77 = 0o600 := by decide
  have hread : ∀ (c : String) (m : Nat) (s2 : ProcState), s2.keyFile = some (c, m) →
      _get_api_key next s2 = ((c, false), s2) := by
    intro c m s2 h2
    simp [_get_api_key, h2]
  have hfirst : (_get_api_key input s).2 =
      { umask := s.umask, keyFile := some (pyStrip input, 0o600) } := by
    simp [_get_api_key, h, private_files, writeKey, hmode]
  refine ⟨by simp [_get_api_key, h], by simp [_get_api_key, h], hfirst, by decide, ?_, hread⟩
  rw [hfirst]
  exact hread (pyStrip input) 0o600 _ rfl

/-- Witness for C4 at the spec's concrete input: first retrieval on an
empty environment with typed line `"ABC123\n"` returns `"ABC123"`,
stores `"ABC123"` with mode `0o600`, and a second retrieval returns
`"ABC123"` without prompting. -/
theorem C4_credential_roundtrip_witness :
    (_get_api_key "ABC123\n" ⟨0o22, none⟩).1 = ("ABC123", true) ∧
    (_get_api_key "ABC123\n" ⟨0o22, none⟩).2 =
      { umask := 0o22, keyFile := some ("ABC123", 0o600) } ∧
    _get_api_key "other" (_get_api_key "ABC123\n" ⟨0o22, none⟩).2 =
      (("ABC123", false), (_get_api_key "ABC123\n" ⟨0o22, none⟩).2) := by
  have T := C4_credential_roundtrip ⟨0o22, none⟩ "ABC123\n" "other" rfl
  have hs : pyStrip "ABC123\n" = "ABC123" := by decide
  refine ⟨?_, ?_, ?_⟩
  · have h1 := T.1
    have h2 := T.2.1
    rw [hs] at h1
    exact Prod.ext h1 h2
  · have h3 := T.2.2.1
    rw [hs] at h3
    exact h3
  · have h5 := T.2.2.2.2.1
    rw [hs] at h5
    exact h5

/-- C3: every wrapped remote operation that reports `(success = false,
data)` raises exactly one fatal error carrying that operation's name and
the API's failure data, ending `_push` right there; a successful
operation's data passes through unchanged.  The last conjunct: inside
`main`'s dispatch such an error makes the whole run end as `fatal`. -/
theorem C3_failure_wrapped (result : Call → Bool × String) (device : Option Device)
    (raw fileData : String) :
    (∀ fname data, raise_for_status fname (true, data) = Except.ok data) ∧
    ((result (Call.push_note "Note" raw device)).1 = false →
      _push result device raw "text" =
        ([Call.push_note "Note" raw device],
          Except.error ⟨"push_note", (result (Call.push_note "Note" raw device)).2⟩)) ∧
    ((result (Call.push_link raw raw device)).1 = false →
      _push result device raw "url" =
        ([Call.push_link raw raw device],
          Except.error ⟨"push_link", (result (Call.push_link raw raw device)).2⟩)) ∧
    ((result (Call.upload_file raw)).1 = false →
      _push result device raw "file" =
        ([Call.upload_file raw],
          Except.error ⟨"upload_file", (result (Call.upload_file raw)).2⟩)) ∧
    (result (Call.upload_file raw) = (true, fileData) →
      (result (Call.push_file fileData device)).1 = false →
      _push result device raw "file" =
        ([Call.upload_file raw, Call.push_file fileData device],
          Except.error ⟨"push_file", (result (Call.push_file fileData device)).2⟩)) ∧
    (∀ (args : Args) (env : MainEnv) (e : PBError) (calls : List Call),
      args.msg ≠ [] →
      _push env.result device (joinStr " " args.msg)
          (_data_type env.isfile (joinStr " " args.msg)) = (calls, Except.error e) →
      mainDispatch device args env = (Outcome.fatal e, calls, [])) := by
  refine ⟨fun fname data => by simp [raise_for_status], ?_, ?_, ?_, ?_, ?_⟩
  · intro h
    simp [_push, raise_for_status, h]
  · intro h
    simp [_push, raise_for_status, h]
  · intro h
    simp [_push, raise_for_status, h]
  · intro h1 h2
    simp [_push, raise_for_status, h1, h2]
  · intro args env e calls hmsg hpush
    have hempty : args.msg.isEmpty = false := by
      cases hm : args.msg with
      | nil => exact absurd hm hmsg
      | cons a l => rfl
    simp [mainDispatch, hempty, hpush]

/-- Witness for C3: a client failing every call makes a note push raise
`push_note failed`; a client whose upload succeeds but whose `push_file`
fails raises `push_file failed` after the two calls; the same failing
note push makes the dispatched run end fatally. -/
theorem C3_failure_wrapped_witness :
    _push (fun _ => (false, "boom")) none "hi" "text" =
      ([Call.push_note "Note" "hi" none], Except.error ⟨"push_note", "boom"⟩) ∧
    _push
      (fun c => match c with
        | Call.upload_file _ => (true, "meta")
        | _ => (false, "boom")) none "notes.txt" "file" =
      ([Call.upload_file "notes.txt", Call.push_file "meta" none],
        Except.error ⟨"push_file", "boom"⟩) ∧
    mainDispatch none ⟨["hi"], false, false, none⟩
      ⟨[], fun _ => (false, "boom"), fun _ => false, "", []⟩ =
      (Outcome.fatal ⟨"push_note", "boom"⟩, [Call.push_note "Note" "hi" none], []) := by
  refine ⟨?_, ?_, ?_⟩
  · exact (C3_failure_wrapped (fun _ => (false, "boom")) none "hi" "x").2.1 rfl
  · exact (C3_failure_wrapped
      (fun c => match c with
        | Call.upload_file _ => (true, "meta")
        | _ => (false, "boom")) none "notes.txt" "meta").2.2.2.2.1 rfl rfl
  · exact (C3_failure_wrapped (fun _ => (false, "boom")) none "hi" "x").2.2.2.2.2
      ⟨["hi"], false, false, none⟩
      ⟨[], fun _ => (false, "boom"), fun _ => false, "", []⟩
      ⟨"push_note", "boom"⟩ [Call.push_note "Note" "hi" none]
      (by simp) rfl

/-- C6: the empty-device-list check runs exactly when `--all` is not
set: without `--all` an empty device list prints the no-devices message
and returns exit code 1 with no remote call issued (so no dispatch and
no classification happen); with `--all` the whole resolution block —
including this check — is skipped and dispatch runs with no specific
device. -/
theorem C6_empty_device_check (args : Args) (env : MainEnv) :
    (args.all = false → env.devices = [] →
      mainRun args env = (Outcome.exit 1, [],
        ["You don't have any devices!",
         "Add one at <https://www.pushbullet.com/>."])) ∧
    (args.all = true → mainRun args env = mainDispatch none args env) := by
  constructor
  · intro h1 h2
    simp [mainRun, h1, h2]
  · intro h1
    simp [mainRun, h1]

/-- Witness for C6: with no devices and `--all` unset the run exits
with code 1 having issued no call; with `--all` set (same empty account)
the dispatch happens with no specific device. -/
theorem C6_empty_device_check_witness :
    mainRun ⟨["hi"], false, false, none⟩
      ⟨[], fun _ => (true, "ok"), fun _ => false, "", []⟩ =
      (Outcome.exit 1, [],
        ["You don't have any devices!",
         "Add one at <https://www.pushbullet.com/>."]) ∧
    mainRun ⟨["hi"], true, false, none⟩
      ⟨[], fun _ => (true, "ok"), fun _ => false, "", []⟩ =
      mainDispatch none ⟨["hi"], true, false, none⟩
        ⟨[], fun _ => (true, "ok"), fun _ => false, "", []⟩ :=
  ⟨(C6_empty_device_check ⟨["hi"], false, false, none⟩
      ⟨[], fun _ => (true, "ok"), fun _ => false, "", []⟩).1 rfl rfl,
   (C6_empty_device_check ⟨["hi"], true, false, none⟩
      ⟨[], fun _ => (true, "ok"), fun _ => false, "", []⟩).2 rfl⟩

theorem promptMenuAux_get? (ds : List Device) (j i : Nat) :
    (promptMenuAux j ds).get? i =
      (ds.get? i).map (fun d => "[" ++ toString (j + i) ++ "] " ++ d.nickname) := by
  induction ds generalizing j i with
  | nil => simp [promptMenuAux]
  | cons d ds ih =>
    cases i with
    | zero => simp [promptMenuAux]
    | succ i =>
      have hadd : j + (i + 1) = (j + 1) + i := by omega
      simp only [promptMenuAux, List.get?_cons_succ, ih (j + 1) i, hadd]

theorem promptLoop_good (devices : List Device) (line : String) (rest : List String)
    (i : Int) (h0 : 0 ≤ i) (h1 : i < (devices.length : Int))
    (hp : pyInt? (pyStrip line) = some i) :
    promptLoop devices (line :: rest) = some (devices.get ⟨i.toNat, by omega⟩) := by
  simp only [promptLoop, hp]
  rw [dif_pos ⟨h0, h1⟩]

theorem promptLoop_bad (devices : List Device) (line : String) (rest : List String)
    (hb : badLine devices line = true) :
    promptLoop devices (line :: rest) = promptLoop devices rest := by
  unfold badLine at hb
  cases hp : pyInt? (pyStrip line) with
  | none => simp [promptLoop, hp]
  | some c =>
    rw [hp] at hb
    simp only [Bool.not_eq_true'] at hb
    simp only [promptLoop, hp]
    rw [dif_neg]
    intro hcon
    obtain ⟨hc1, hc2⟩ := hcon
    simp [hc1, hc2] at hb

theorem promptLoop_mem (devices : List Device) (inputs : List String) (d : Device)
    (h : promptLoop devices inputs = some d) : d ∈ devices := by
  induction inputs with
  | nil => simp [promptLoop] at h
  | cons line rest ih =>
    simp only [promptLoop] at h
    cases hp : pyInt? (pyStrip line) with
    | none =>
      rw [hp] at h
      exact ih h
    | some c =>
      rw [hp] at h
      simp only at h
      split at h
      · obtain rfl : devices.get _ = d := Option.some.inj h
        exact List.get_mem devices _ _
      · exact ih h

theorem promptLoop_none (devices : List Device) (inputs : List String)
    (h : ∀ l ∈ inputs, badLine devices l = true) :
    promptLoop devices inputs = none := by
  induction inputs with
  | nil => rfl
  | cons line rest ih =>
    rw [promptLoop_bad devices line rest (h line (List.mem_cons_self line rest))]
    exact ih (fun l hl => h l (List.mem_cons_of_mem line hl))

/-- C9: the interactive selector prints the devices as a zero-indexed
menu (`[i] nickname`) and then loops: it returns exactly on a line that
strips and parses to an integer `i` with `0 ≤ i <` length, yielding the
`i`-th device; any other line silently re-prompts; the result, if any,
is always a member of the list; and with only bad lines available the
loop never produces a device (it is still running). -/
theorem C9_interactive_loop (devices : List Device) (inputs : List String)
    (hne : devices ≠ []) :
    (∀ (i : Nat) (h : i < devices.length),
      (promptMenu devices).get? i =
        some ("[" ++ toString i ++ "] " ++ (devices.get ⟨i, h⟩).nickname)) ∧
    (∀ (line : String) (rest : List String) (i : Int)
      (h0 : 0 ≤ i) (h1 : i < (devices.length : Int)),
      pyInt? (pyStrip line) = some i →
      promptLoop devices (line :: rest) = some (devices.get ⟨i.toNat, by omega⟩)) ∧
    (∀ (line : String) (rest : List String), badLine devices line = true →
      promptLoop devices (line :: rest) = promptLoop devices rest) ∧
    (∀ d : Device, promptLoop devices inputs = some d → d ∈ devices) ∧
    ((∀ l ∈ inputs, badLine devices l = true) → promptLoop devices inputs = none) := by
  refine ⟨?_, ?_, ?_, ?_, ?_⟩
  · intro i h
    rw [promptMenu, promptMenuAux_get? devices 0 i, List.get?_eq_get h]
    simp
  · intro line rest i h0 h1 hp
    exact promptLoop_good devices line rest i h0 h1 hp
  · intro line rest hb
    exact promptLoop_bad devices line rest hb
  · intro d h
    exact promptLoop_mem devices inputs d h
  · intro h
    exact promptLoop_none devices inputs h

/-- Witness for C9 on the two-device list Phone, Tablet: the menu lines
are `[0] Phone` and `[1] Tablet`; the junk lines `"x"` and `"7"` are
skipped and `" 1 "` then selects Tablet; on junk alone the loop is
still running. -/
theorem C9_interactive_loop_witness :
    (promptMenu [⟨"p1", "Phone"⟩, ⟨"t1", "Tablet"⟩]).get? 0 = some "[0] Phone" ∧
    promptLoop [⟨"p1", "Phone"⟩, ⟨"t1", "Tablet"⟩] [" 1 "] = some ⟨"t1", "Tablet"⟩ ∧
    promptLoop [⟨"p1", "Phone"⟩, ⟨"t1", "Tablet"⟩] ["x", "7", " 1 "] =
      some ⟨"t1", "Tablet"⟩ ∧
    promptLoop [⟨"p1", "Phone"⟩, ⟨"t1", "Tablet"⟩] ["x", "-1"] = none := by
  have T := C9_interactive_loop [⟨"p1", "Phone"⟩, ⟨"t1", "Tablet"⟩] ["x", "7", " 1 "]
    (by decide)
  have T2 := C9_interactive_loop [⟨"p1", "Phone"⟩, ⟨"t1", "Tablet"⟩] ["x", "-1"]
    (by decide)
  refine ⟨?_, ?_, ?_, ?_⟩
  · have h := T.1 0 (by decide)
    simpa using h
  · exact T.2.1 " 1 " [] 1 (by decide) (by decide) (by decide)
  · rw [T.2.2.1 "x" ["7", " 1 "] (by decide), T.2.2.1 "7" [" 1 "] (by decide)]
    exact T.2.1 " 1 " [] 1 (by decide) (by decide) (by decide)
  · exact T2.2.2.2.2 (by decide)

theorem classifyTok_plain (t : String) (h : plainTok t = true) :
    classifyTok t = Tok.plain := by
  have h1 : ¬(t = "-a" ∨ t = "--all") := by
    rintro (rfl | rfl) <;> exact absurd h (by decide)
  have h2 : ¬(t = "-i" ∨ t = "--interactive") := by
    rintro (rfl | rfl) <;> exact absurd h (by decide)
  have h3 : ¬(t = "-d" ∨ t = "--device") := by
    rintro (rfl | rfl) <;> exact absurd h (by decide)
  simp [classifyTok, h1, h2, h3, h]

theorem parseLoop_plain (ts rest : List String) (seen : Option GroupFlag) (acc : Args)
    (h : ∀ t ∈ ts, plainTok t = true) :
    parseLoop (ts ++ rest) seen false false acc =
      parseLoop rest seen false false { acc with msg := acc.msg ++ ts } := by
  induction ts generalizing acc with
  | nil => simp
  | cons t ts ih =>
    have ht : classifyTok t = Tok.plain :=
      classifyTok_plain t (h t (List.mem_cons_self t ts))
    have hrec := ih { acc with msg := acc.msg ++ [t] }
      (fun u hu => h u (List.mem_cons_of_mem t hu))
    simp only [List.cons_append, parseLoop, ht] at hrec ⊢
    simpa [List.append_assoc] using hrec

theorem parseLoop_plain_closed (t : String) (rest : List String)
    (seen : Option GroupFlag) (acc : Args) (h : plainTok t = true) :
    parseLoop (t :: rest) seen false true acc =
      Except.error "unrecognized arguments" := by
  have ht : classifyTok t = Tok.plain := classifyTok_plain t h
  simp [parseLoop, ht]

/-- The field of `Args` a fired group option sets; for `-d` the value is
the token following the flag. -/
def applyFlag (g : GroupFlag) (seg : List String) (acc : Args) : Args :=
  match g with
  | GroupFlag.all => { acc with all := true }
  | GroupFlag.inter => { acc with interactive := true }
  | GroupFlag.dev => { acc with device := some (seg.getD 1 "") }

/-- The `Args` a command line with message words `msg` and exactly the
one group option described by `g` and `seg` parses to. -/
def segArgs (msg : List String) (g : GroupFlag) (seg : List String) : Args :=
  applyFlag g seg ⟨msg, false, false, none⟩

/-- Here `seg` is one way of writing the group option `g` on the command
line: the short or long flag token, with its value token for `-d`. -/
def flagSeg : GroupFlag → List String → Prop
  | GroupFlag.all, seg => seg = ["-a"] ∨ seg = ["--all"]
  | GroupFlag.inter, seg => seg = ["-i"] ∨ seg = ["--interactive"]
  | GroupFlag.dev, seg =>
    ∃ v, (seg = ["-d", v] ∨ seg = ["--device", v]) ∧ plainTok v = true

theorem parseLoop_seg_ok (g : GroupFlag) (seg rest : List String)
    (seen : Option GroupFlag) (closed : Bool) (acc : Args) (hseg : flagSeg g seg)
    (hseen : seen = none ∨ seen = some g) :
    parseLoop (seg ++ rest) seen false closed acc =
      parseLoop rest (some g) false (closed || !acc.msg.isEmpty)
        (applyFlag g seg acc) := by
  cases g with
  | all =>
    rcases hseg with rfl | rfl <;>
      simp [parseLoop, classifyTok, hseen, applyFlag]
  | inter =>
    rcases hseg with rfl | rfl <;>
      simp [parseLoop, classifyTok, hseen, applyFlag]
  | dev =>
    obtain ⟨v, hv, hplain⟩ := hseg
    rcases hv with rfl | rfl <;>
      simp [parseLoop, classifyTok, hseen, hplain, applyFlag]

theorem parseLoop_seg_conflict (g1 g2 : GroupFlag) (seg rest : List String)
    (closed : Bool) (acc : Args) (hseg : flagSeg g2 seg) (hne : g1 ≠ g2) :
    parseLoop (seg ++ rest) (some g1) false closed acc =
      Except.error "mutually exclusive arguments" := by
  cases g2 with
  | all =>
    rcases hseg with rfl | rfl <;> simp [parseLoop, classifyTok, hne]
  | inter =>
    rcases hseg with rfl | rfl <;> simp [parseLoop, classifyTok, hne]
  | dev =>
    obtain ⟨v, hv, hplain⟩ := hseg
    rcases hv with rfl | rfl <;> simp [parseLoop, classifyTok, hne, hplain]

/-- C5 (amended): for command lines whose message words are one
contiguous block, parsing with none of the three device-selection
options, or with exactly one of them (in either spelling, before or
after the message block), succeeds and yields the corresponding flag
structure; with two options from different members of the group
anywhere on the command line, parsing fails and the whole program
stops with the `argparse` usage exit (status 2) before the credential
store is read and before any remote call is issued.  (The original
claim, for arbitrary placement of the message words around one option,
fails: see the contiguity counterexample.) -/
theorem C5_mutually_exclusive_flags (msg mid post s1 s2 : List String)
    (g1 g2 : GroupFlag) (keyInput : String) (st : ProcState) (env : MainEnv)
    (hmsg : ∀ t ∈ msg, plainTok t = true)
    (hmid : ∀ t ∈ mid, plainTok t = true)
    (hs1 : flagSeg g1 s1) (hs2 : flagSeg g2 s2) :
    _parse_args msg = Except.ok ⟨msg, false, false, none⟩ ∧
    _parse_args (msg ++ s1) = Except.ok (segArgs msg g1 s1) ∧
    _parse_args (s1 ++ msg) = Except.ok (segArgs msg g1 s1) ∧
    (g1 ≠ g2 →
      program (msg ++ s1 ++ mid ++ s2 ++ post) keyInput st env =
        ⟨Outcome.exit 2, [], false, st⟩) := by
  have hA : _parse_args msg = Except.ok ⟨msg, false, false, none⟩ := by
    have := parseLoop_plain msg [] none ⟨[], false, false, none⟩ hmsg
    rw [_parse_args, ← List.append_nil msg] at *
    simpa [parseLoop] using this
  have hB : _parse_args (msg ++ s1) = Except.ok (segArgs msg g1 s1) := by
    rw [_parse_args, ← List.append_nil (msg ++ s1), List.append_assoc,
      parseLoop_plain msg (s1 ++ []) none ⟨[], false, false, none⟩ hmsg]
    show parseLoop (s1 ++ []) none false false ⟨msg, false, false, none⟩ =
      Except.ok (segArgs msg g1 s1)
    rw [parseLoop_seg_ok g1 s1 [] none false ⟨msg, false, false, none⟩ hs1
      (Or.inl rfl)]
    simp [parseLoop, segArgs]
  have hC : _parse_args (s1 ++ msg) = Except.ok (segArgs msg g1 s1) := by
    rw [_parse_args,
      parseLoop_seg_ok g1 s1 msg none false ⟨[], false, false, none⟩ hs1
        (Or.inl rfl)]
    show parseLoop msg (some g1) false false
      (applyFlag g1 s1 ⟨[], false, false, none⟩) = Except.ok (segArgs msg g1 s1)
    have hlast := parseLoop_plain msg [] (some g1)
      (applyFlag g1 s1 ⟨[], false, false, none⟩) hmsg
    rw [List.append_nil] at hlast
    rw [hlast]
    cases g1 with
    | all =>
      rcases hs1 with rfl | rfl <;> simp [parseLoop, applyFlag, segArgs]
    | inter =>
      rcases hs1 with rfl | rfl <;> simp [parseLoop, applyFlag, segArgs]
    | dev =>
      obtain ⟨v, hv, hplain⟩ := hs1
      rcases hv with rfl | rfl <;> simp [parseLoop, applyFlag, segArgs]
  refine ⟨hA, hB, hC, ?_⟩
  intro hne
  have herr : ∃ m, _parse_args (msg ++ (s1 ++ (mid ++ (s2 ++ post)))) =
      Except.error m := by
    rw [_parse_args, parseLoop_plain msg (s1 ++ (mid ++ (s2 ++ post))) none
      ⟨[], false, false, none⟩ hmsg]
    show ∃ m, parseLoop (s1 ++ (mid ++ (s2 ++ post))) none false false
      ⟨msg, false, false, none⟩ = Except.error m
    rw [parseLoop_seg_ok g1 s1 (mid ++ (s2 ++ post)) none false
      ⟨msg, false, false, none⟩ hs1 (Or.inl rfl)]
    cases msg with
    | nil =>
      show ∃ m, parseLoop (mid ++ (s2 ++ post)) (some g1) false false
        (applyFlag g1 s1 ⟨[], false, false, none⟩) = Except.error m
      rw [parseLoop_plain mid (s2 ++ post) (some g1)
        (applyFlag g1 s1 ⟨[], false, false, none⟩) hmid]
      exact ⟨"mutually exclusive arguments",
        parseLoop_seg_conflict g1 g2 s2 post false _ hs2 hne⟩
    | cons a msg2 =>
      cases mid with
      | nil =>
        show ∃ m, parseLoop (s2 ++ post) (some g1) false true
          (applyFlag g1 s1 ⟨a :: msg2, false, false, none⟩) = Except.error m
        exact ⟨"mutually exclusive arguments",
          parseLoop_seg_conflict g1 g2 s2 post true _ hs2 hne⟩
      | cons t mid2 =>
        show ∃ m, parseLoop (t :: (mid2 ++ (s2 ++ post))) (some g1) false true
          (applyFlag g1 s1 ⟨a :: msg2, false, false, none⟩) = Except.error m
        exact ⟨"unrecognized arguments",
          parseLoop_plain_closed t (mid2 ++ (s2 ++ post)) (some g1) _
            (hmid t (List.mem_cons_self t mid2))⟩
  obtain ⟨m, hm⟩ := herr
  simp [program, hm]

/-- C5 counterexample: the command line `hello -a world` gives exactly
one group option, yet parsing fails: the star-nargs `msg` positional
consumes the first chunk `hello` and is closed by `-a`, leaving `world`
an unrecognized extra, so `argparse` exits with the usage status 2 —
the program result shows no credential read and no call — refuting the
original claim that every one-option command line parses. -/
theorem C5_contiguity_counterexample :
    _parse_args ["hello", "-a", "world"] =
      Except.error "unrecognized arguments" ∧
    program ["hello", "-a", "world"] "key" ⟨0o22, none⟩
      ⟨[], fun _ => (true, "ok"), fun _ => false, "", []⟩ =
      ⟨Outcome.exit 2, [], false, ⟨0o22, none⟩⟩ := ⟨rfl, rfl⟩

/-- Witness for C5: a flagless command line parses; `-d Phone` after the
message word and `-a` before it both parse to the matching structure;
`-a -i` together make the program exit with status 2, no credential
read and no call issued. -/
theorem C5_mutually_exclusive_flags_witness :
    _parse_args ["hello", "world"] =
      Except.ok ⟨["hello", "world"], false, false, none⟩ ∧
    _parse_args ["hello", "-d", "Phone"] =
      Except.ok ⟨["hello"], false, false, some "Phone"⟩ ∧
    _parse_args ["-a", "hello"] = Except.ok ⟨["hello"], true, false, none⟩ ∧
    program ["-a", "-i"] "key" ⟨0o22, none⟩
      ⟨[], fun _ => (true, ""), fun _ => false, "", []⟩ =
      ⟨Outcome.exit 2, [], false, ⟨0o22, none⟩⟩ := by
  have T1 := C5_mutually_exclusive_flags ["hello", "world"] [] [] ["-a"] ["-i"]
    GroupFlag.all GroupFlag.inter "key" ⟨0o22, none⟩
    ⟨[], fun _ => (true, ""), fun _ => false, "", []⟩
    (by decide) (by decide) (Or.inl rfl) (Or.inl rfl)
  have T2 := C5_mutually_exclusive_flags ["hello"] [] [] ["-d", "Phone"] ["-i"]
    GroupFlag.dev GroupFlag.inter "key" ⟨0o22, none⟩
    ⟨[], fun _ => (true, ""), fun _ => false, "", []⟩
    (by decide) (by decide)
    ⟨"Phone", Or.inl rfl, by decide⟩ (Or.inl rfl)
  have T3 := C5_mutually_exclusive_flags ["hello"] [] [] ["-a"] ["-i"]
    GroupFlag.all GroupFlag.inter "key" ⟨0o22, none⟩
    ⟨[], fun _ => (true, ""), fun _ => false, "", []⟩
    (by decide) (by decide) (Or.inl rfl) (Or.inl rfl)
  have T4 := C5_mutually_exclusive_flags [] [] [] ["-a"] ["-i"]
    GroupFlag.all GroupFlag.inter "key" ⟨0o22, none⟩
    ⟨[], fun _ => (true, ""), fun _ => false, "", []⟩
    (by decide) (by decide) (Or.inl rfl) (Or.inl rfl)
  refine ⟨T1.1, ?_, ?_, ?_⟩
  · simpa [segArgs, applyFlag] using T2.2.1
  · simpa [segArgs, applyFlag] using T3.2.2.1
  · simpa using T4.2.2.2 (by decide)

theorem find?_cons_eq {α : Type} (f : α → Bool) (a : α) (l : List α) :
    (a :: l).find? f = if f a then some a else l.find? f := by
  cases h : f a <;> simp [List.find?, h]

theorem dictLookup_cons (q : String × Device) (l : List (String × Device)) (n : String) :
    dictLookup (q :: l) n = if q.1 == n then some q.2 else dictLookup l n := by
  rw [dictLookup, find?_cons_eq]
  by_cases h : (q.1 == n) = true <;> simp [h, dictLookup]

theorem dictLookup_map_update (m : List (String × Device)) (k : String) (v : Device)
    (n : String) :
    dictLookup (m.map (fun p => if p.1 == k then (k, v) else p)) n =
      if n = k then (if m.any (fun p => p.1 == k) then some v else none)
      else dictLookup m n := by
  induction m with
  | nil => by_cases h : n = k <;> simp [dictLookup, h]
  | cons p m ih =>
    by_cases hp : p.1 = k
    · by_cases hn : n = k
      · subst hn
        rw [List.map_cons, dictLookup_cons, ih]
        simp [hp, List.any_cons]
      · have hnk : ¬ k = n := fun h => hn h.symm
        have hpn : ¬ p.1 = n := by rw [hp]; exact hnk
        rw [List.map_cons, dictLookup_cons, ih]
        simp [hp, hn, hnk, hpn, dictLookup_cons]
    · by_cases hq : p.1 = n
      · have hn : ¬ n = k := by rw [← hq]; exact fun h => hp h
        rw [List.map_cons, dictLookup_cons, ih]
        simp [hp, hq, hn, dictLookup_cons]
      · have hpb : (p.1 == k) = false := beq_eq_false_iff_ne.mpr hp
        rw [List.map_cons, dictLookup_cons, ih, dictLookup_cons, List.any_cons, hpb,
          Bool.false_or]
        simp [hp, hq]

theorem dictLookup_dictInsert (m : List (String × Device)) (k : String) (v : Device)
    (n : String) :
    dictLookup (dictInsert m k v) n = if n = k then some v else dictLookup m n := by
  rw [dictInsert]
  by_cases hany : m.any (fun p => p.1 == k) = true
  · rw [if_pos hany, dictLookup_map_update, hany]
    simp
  · rw [if_neg hany]
    have hnone : m.find? (fun p => p.1 == k) = none := by
      rw [List.find?_eq_none]
      intro x hx hbx
      exact hany (List.any_eq_true.mpr ⟨x, hx, hbx⟩)
    by_cases hn : n = k
    · subst hn
      simp [dictLookup, List.find?_append, hnone, find?_cons_eq]
    · have hkn : ¬ k = n := fun h => hn h.symm
      simp [dictLookup, List.find?_append, find?_cons_eq, hkn, hn]

theorem dictLookup_foldl (ds : List Device) (m : List (String × Device)) (n : String) :
    dictLookup (ds.foldl (fun m d => dictInsert m d.nickname d) m) n =
      (ds.reverse.find? (fun d => d.nickname == n)).or (dictLookup m n) := by
  induction ds generalizing m with
  | nil => simp
  | cons d ds ih =>
    rw [List.foldl_cons, ih, List.reverse_cons, List.find?_append, dictLookup_dictInsert]
    cases hf : ds.reverse.find? (fun d => d.nickname == n) with
    | some x => simp
    | none =>
      simp only [Option.none_or]
      by_cases hdn : n = d.nickname
      · simp [find?_cons_eq, hdn]
      · have hnd : ¬ d.nickname = n := fun h => hdn h.symm
        simp [find?_cons_eq, hdn, hnd]

theorem keys_dictInsert (m : List (String × Device)) (k : String) (v : Device) :
    (dictInsert m k v).map Prod.fst =
      if m.any (fun p => p.1 == k) then m.map Prod.fst
      else m.map Prod.fst ++ [k] := by
  rw [dictInsert]
  by_cases hany : m.any (fun p => p.1 == k) = true
  · rw [if_pos hany, if_pos hany]
    clear hany
    induction m with
    | nil => rfl
    | cons p m ih =>
      rw [List.map_cons, List.map_cons, List.map_cons, ih]
      by_cases hp : p.1 = k
      · simp [hp]
      · simp [hp]
  · rw [if_neg hany, if_neg hany]
    simp

theorem keys_nodup_foldl (ds : List Device) (m : List (String × Device))
    (hm : (m.map Prod.fst).Nodup) :
    ((ds.foldl (fun m d => dictInsert m d.nickname d) m).map Prod.fst).Nodup := by
  induction ds generalizing m with
  | nil => exact hm
  | cons d ds ih =>
    rw [List.foldl_cons]
    apply ih
    rw [keys_dictInsert]
    by_cases hany : m.any (fun p => p.1 == d.nickname) = true
    · simpa [hany] using hm
    · rw [if_neg hany]
      have hk : d.nickname ∉ m.map Prod.fst := by
        intro hmem
        obtain ⟨p, hp, hfst⟩ := List.mem_map.mp hmem
        exact hany (List.any_eq_true.mpr ⟨p, hp, by simp [hfst]⟩)
      exact List.Nodup.append hm (List.nodup_singleton _) (fun x hx hx2 => by
        rcases List.mem_singleton.mp hx2 with rfl
        exact hk hx)

/-- C10: with duplicate nicknames the dict comprehension keeps the last
device for each nickname — lookup is `find?` over the reversed device
list — while the key listing (what the unknown-device message joins)
holds each nickname exactly once, and every device's nickname does
appear among the keys. -/
theorem C10_duplicate_nicknames (ds : List Device) (n : String) :
    dictLookup (devices_by_names ds) n =
      ds.reverse.find? (fun d => d.nickname == n) ∧
    ((devices_by_names ds).map Prod.fst).Nodup ∧
    (∀ d ∈ ds, d.nickname ∈ (devices_by_names ds).map Prod.fst) := by
  have master : ∀ n2 : String, dictLookup (devices_by_names ds) n2 =
      ds.reverse.find? (fun d => d.nickname == n2) := by
    intro n2
    rw [devices_by_names, dictLookup_foldl]
    simp [dictLookup]
  refine ⟨master n, keys_nodup_foldl ds [] (by simp), ?_⟩
  intro d hd
  have hsome : (ds.reverse.find? (fun x => x.nickname == d.nickname)).isSome := by
    rw [List.find?_isSome]
    exact ⟨d, List.mem_reverse.mpr hd, by simp⟩
  rw [← master d.nickname] at hsome
  have hfs : ((devices_by_names ds).find? (fun p => p.1 == d.nickname)).isSome := by
    simpa [dictLookup] using hsome
  obtain ⟨pr, hpr⟩ := Option.isSome_iff_exists.mp hfs
  have hmem := List.mem_of_find?_eq_some hpr
  have hkey : pr.1 = d.nickname := by simpa using List.find?_some hpr
  exact hkey ▸ List.mem_map_of_mem Prod.fst hmem

/-- C7 (amended): for a non-empty device list and a NON-EMPTY `--device`
name, lookup selects a device whose nickname is exactly, case-sensitively
equal to the name (no partial match), and on a miss the program prints
the known nicknames and returns exit code 1 without issuing any call.
(The original claim, for every name, fails at the empty name: see the
counterexample.) -/
theorem C7_device_name_lookup (args : Args) (env : MainEnv) (name : String)
    (hall : args.all = false) (hint : args.interactive = false)
    (hdev : args.device = some name) (hname : name ≠ "")
    (hnonempty : env.devices ≠ []) :
    (∀ d : Device, dictLookup (devices_by_names env.devices) name = some d →
      d.nickname = name ∧ d ∈ env.devices ∧
      mainRun args env = mainDispatch (some d) args env) ∧
    (dictLookup (devices_by_names env.devices) name = none →
      (∀ d ∈ env.devices, d.nickname ≠ name) ∧
      mainRun args env = (Outcome.exit 1, [],
        ["Unknown device " ++ name ++ ". Available devices: " ++
          joinStr ", " ((devices_by_names env.devices).map Prod.fst)])) := by
  have hlen : ¬ env.devices.length < 1 := by
    cases hd : env.devices with
    | nil => exact absurd hd hnonempty
    | cons a l => simp [hd]
  have master : ∀ n2 : String, dictLookup (devices_by_names env.devices) n2 =
      env.devices.reverse.find? (fun d => d.nickname == n2) := by
    intro n2
    rw [devices_by_names, dictLookup_foldl]
    simp [dictLookup]
  constructor
  · intro d hd
    have hfind : env.devices.reverse.find? (fun x => x.nickname == name) = some d := by
      rw [← master]; exact hd
    have hnick : d.nickname = name := by simpa using List.find?_some hfind
    have hmem : d ∈ env.devices := List.mem_reverse.mp (List.mem_of_find?_eq_some hfind)
    refine ⟨hnick, hmem, ?_⟩
    simp [mainRun, hall, hint, hdev, hname, hlen, hd]
  · intro h0
    have hfind : env.devices.reverse.find? (fun x => x.nickname == name) = none := by
      rw [← master]; exact h0
    have hnone : ∀ d ∈ env.devices, d.nickname ≠ name := by
      intro d hdm heq
      have := List.find?_eq_none.mp hfind d (List.mem_reverse.mpr hdm)
      simp [heq] at this
    refine ⟨hnone, ?_⟩
    simp [mainRun, hall, hint, hdev, hname, hlen, h0]

/-- C7 counterexample: the original claim quantifies over every
`deviceName` argument, but with `--device ""` (an empty name, not among
the nicknames) the source's truthiness test `elif args.device:` skips
the lookup entirely: instead of printing the nickname list and exiting
with status 1, the run pushes the note with no specific device and
exits 0. -/
theorem C7_device_name_counterexample :
    mainRun ⟨["hello"], false, false, some ""⟩
      ⟨[⟨"id1", "Phone"⟩], fun _ => (true, "ok"), fun _ => false, "", []⟩ =
      (Outcome.exit 0, [Call.push_note "Note" "hello" none], []) ∧
    (mainRun ⟨["hello"], false, false, some ""⟩
      ⟨[⟨"id1", "Phone"⟩], fun _ => (true, "ok"), fun _ => false, "", []⟩).1 ≠
      Outcome.exit 1 := by
  refine ⟨rfl, ?_⟩
  intro h
  exact absurd h (by decide)

/-- Witness for C7 on devices Phone and Tablet: `--device Phone` hits
(exact match) and dispatch proceeds with that device; `--device phone`
(wrong case) misses, prints the nicknames and exits 1 with no call. -/
theorem C7_device_name_lookup_witness :
    mainRun ⟨["hi"], false, false, some "Phone"⟩
      ⟨[⟨"p1", "Phone"⟩, ⟨"t1", "Tablet"⟩], fun _ => (true, "ok"),
        fun _ => false, "", []⟩ =
      mainDispatch (some ⟨"p1", "Phone"⟩) ⟨["hi"], false, false, some "Phone"⟩
        ⟨[⟨"p1", "Phone"⟩, ⟨"t1", "Tablet"⟩], fun _ => (true, "ok"),
          fun _ => false, "", []⟩ ∧
    mainRun ⟨["hi"], false, false, some "phone"⟩
      ⟨[⟨"p1", "Phone"⟩, ⟨"t1", "Tablet"⟩], fun _ => (true, "ok"),
        fun _ => false, "", []⟩ =
      (Outcome.exit 1, [],
        ["Unknown device phone. Available devices: Phone, Tablet"]) := by
  constructor
  · exact ((C7_device_name_lookup ⟨["hi"], false, false, some "Phone"⟩
      ⟨[⟨"p1", "Phone"⟩, ⟨"t1", "Tablet"⟩], fun _ => (true, "ok"),
        fun _ => false, "", []⟩
      "Phone" rfl rfl rfl (by decide) (by decide)).1
      ⟨"p1", "Phone"⟩ (by decide)).2.2
  · have h := ((C7_device_name_lookup ⟨["hi"], false, false, some "phone"⟩
      ⟨[⟨"p1", "Phone"⟩, ⟨"t1", "Tablet"⟩], fun _ => (true, "ok"),
        fun _ => false, "", []⟩
      "phone" rfl rfl rfl (by decide) (by decide)).2 (by decide)).2
    simpa using h

end PushbulletCli
